import Mathlib

/-!
Verification of the Manim scene validator (`validate_scenes.py`).

The Python source is shallowly embedded: coordinates are exact rationals
(`Rat`) standing for the source's floats, scene state is passed explicitly,
and the validator's mutable attributes (`step`, `_reported_overlaps`,
`_reported_oob`, the shared issue tracker) form an explicit state record.
Python sets are modelled as lists used only through membership tests and
insertion; Python object identity (the `is` operator and `in` on mobject
lists, which fall back to identity for mobjects) is modelled by a numeric
`objId` carried by every element, distinct ids standing for distinct
live objects.
-/

/-! ## Geometry helpers -/

/-- Frame width, `config.frame_width` (manim default: 8 * 16/9). -/
def FRAME_W : Rat := 128 / 9

/-- Frame height, `config.frame_height` (manim default 8.0). -/
def FRAME_H : Rat := 8

/-- `HALF_W = FRAME_W / 2`. -/
def HALF_W : Rat := FRAME_W / 2

/-- `HALF_H = FRAME_H / 2`. -/
def HALF_H : Rat := FRAME_H / 2

/-- `EDGE_TOL = 0.05`, the small tolerance used by `is_oob`. -/
def EDGE_TOL : Rat := 1 / 20

/-- A bounding box `(left, right, bottom, top)`, as produced by `get_bbox`. -/
structure BBox where
  l : Rat
  r : Rat
  b : Rat
  t : Rat
deriving DecidableEq

/-- `bbox_area`: `max(0, r - l) * max(0, t - b)`. -/
def bbox_area (bb : BBox) : Rat :=
  max 0 (bb.r - bb.l) * max 0 (bb.t - bb.b)

/-- `bbox_intersection`: rectangle intersection, `None` unless the
intersection is strictly nonempty on both axes (`l < r and b < t`). -/
def bbox_intersection (b1 b2 : BBox) : Option BBox :=
  if max b1.l b2.l < min b1.r b2.r ∧ max b1.b b2.b < min b1.t b2.t then
    some ⟨max b1.l b2.l, min b1.r b2.r, max b1.b b2.b, min b1.t b2.t⟩
  else none

/-- Body of `overlap_ratio` once the intersection is known: `0.0` if the
smaller area is below `1e-6`, else `inter_area / min_area`. -/
def ratio_of (b1 b2 inter : BBox) : Rat :=
  if min (bbox_area b1) (bbox_area b2) < 1 / 1000000 then 0
  else bbox_area inter / min (bbox_area b1) (bbox_area b2)

/-- `overlap_ratio`: `0.0` when the boxes do not intersect, otherwise
`ratio_of`. -/
def overlap_ratio (b1 b2 : BBox) : Rat :=
  (bbox_intersection b1 b2).elim 0 (ratio_of b1 b2)

/-- The four frame edges appearing in OOB violation messages. -/
inductive Edge where
  | LEFT
  | RIGHT
  | BOTTOM
  | TOP
deriving DecidableEq

/-- One entry of the list returned by `is_oob`. The source builds the
string `f"LEFT (x={l:.2f} < {-HALF_W:.2f})"`: the violated edge together
with the offending coordinate and the frame bound are part of the
message text.  The model carries the numbers exactly. -/
structure Violation where
  edge : Edge
  coord : Rat
  bound : Rat
deriving DecidableEq

/-- `is_oob`: the list of edge violations of a box, in the source's fixed
LEFT, RIGHT, BOTTOM, TOP order. -/
def is_oob (bb : BBox) : List Violation :=
  (if bb.l < -HALF_W - EDGE_TOL then [⟨Edge.LEFT, bb.l, -HALF_W⟩] else [])
    ++ (if bb.r > HALF_W + EDGE_TOL then [⟨Edge.RIGHT, bb.r, HALF_W⟩] else [])
    ++ (if bb.b < -HALF_H - EDGE_TOL then [⟨Edge.BOTTOM, bb.b, -HALF_H⟩] else [])
    ++ (if bb.t > HALF_H + EDGE_TOL then [⟨Edge.TOP, bb.t, HALF_H⟩] else [])

/-! ## Scene-graph elements -/

/-- A mobject: `objId` models Python object identity, `label` the
human-readable label computed by `mob_label` (the source derives it from
the element's type and text), `hasPoints` the result of `has_points()`,
`corners` the extent `(l, r, b, t)` read off `get_corner(UL)`/`get_corner(DR)`
(`none` when the geometry query raises), and `submobjects` the ordered
child list. -/
inductive Mob : Type where
  | mk (objId : Nat) (label : String) (hasPoints : Bool)
      (corners : Option BBox) (submobjects : List Mob)

/-- Object identity of a mobject. -/
def Mob.objId : Mob → Nat
  | .mk i _ _ _ _ => i

/-- `mob_label`: the human-readable label of a mobject. -/
def mob_label : Mob → String
  | .mk _ lab _ _ _ => lab

/-- `has_points()` of a mobject. -/
def Mob.hasPoints : Mob → Bool
  | .mk _ _ hp _ _ => hp

/-- The queried corner extent of a mobject, `none` when the query raises. -/
def Mob.corners : Mob → Option BBox
  | .mk _ _ _ c _ => c

/-- The ordered child list of a mobject. -/
def Mob.submobjects : Mob → List Mob
  | .mk _ _ _ _ subs => subs

/-- `get_bbox`: `None` when the mobject has no points and no submobjects,
when the geometry query raises, or when the box is degenerate
(`r - l < 1e-5 or t - b < 1e-5`). -/
def get_bbox (m : Mob) : Option BBox :=
  if !m.hasPoints && m.submobjects.isEmpty then none
  else m.corners.bind fun bb =>
    if bb.r - bb.l < 1 / 100000 ∨ bb.t - bb.b < 1 / 100000 then none
    else some bb

mutual

/-- `SceneValidator._is_ancestor`: does `pa` contain `n` among its
submobjects, directly or nested?  The source compares with `is`
(object identity), modelled by `objId` equality. -/
def _is_ancestor (pa n : Mob) : Bool :=
  match pa with
  | .mk _ _ _ _ subs => anyIsAncestor subs n

/-- The loop of `_is_ancestor` over a submobject list. -/
def anyIsAncestor (l : List Mob) (n : Mob) : Bool :=
  match l with
  | [] => false
  | s :: rest => s.objId == n.objId || _is_ancestor s n || anyIsAncestor rest n

end

mutual

/-- All object ids occurring in the tree rooted at a mobject. -/
def allIds : Mob → List Nat
  | .mk i _ _ _ subs => i :: allIdsList subs

/-- All object ids occurring in a forest of mobjects. -/
def allIdsList : List Mob → List Nat
  | [] => []
  | m :: rest => allIds m ++ allIdsList rest

end

/-- `Descends a d`: `d` is reachable from `a` by following the child
relation one or more times. -/
inductive Descends : Mob → Mob → Prop where
  | child {a s : Mob} : s ∈ a.submobjects → Descends a s
  | step {a s d : Mob} : s ∈ a.submobjects → Descends s d → Descends a d

/-! ## Issues and the tracker -/

/-- Issue severity. -/
inductive Severity where
  | ERROR
  | WARN
deriving DecidableEq

/-- The structured content of an issue message.  The source formats it as
a string; the model keeps the data the string is built from: for an OOB
finding the label, the box and the violation list, for an overlap finding
the ratio and the two labels in scan order. -/
inductive Msg where
  | oob (label : String) (bb : BBox) (violations : List Violation)
  | overlap (ratio : Rat) (l1 l2 : String)
deriving DecidableEq

/-- One record of the tracker: `(severity, scene_name, step, msg)`. -/
structure Issue where
  severity : Severity
  scene_name : String
  step : Nat
  msg : Msg
deriving DecidableEq

/-- `IssueTracker`: an append-only list of issues shared by all scenes. -/
structure IssueTracker where
  issues : List Issue
deriving DecidableEq

/-- `IssueTracker.add`: appends one issue; no deduplication here. -/
def IssueTracker.add (t : IssueTracker) (severity : Severity)
    (scene_name : String) (step : Nat) (msg : Msg) : IssueTracker :=
  ⟨t.issues ++ [⟨severity, scene_name, step, msg⟩]⟩

/-- `IssueTracker.report`: prints the grouped report and returns `True`
iff the tracker holds no issues.  The model keeps the verdict. -/
def IssueTracker.report (t : IssueTracker) : Bool :=
  t.issues.isEmpty

/-! ## The scene validator -/

/-- The mutable attributes of one `SceneValidator` together with the
tracker it reports into: `scene_name`, `overlap_threshold`, `step`, and
the per-scene dedup sets `_reported_overlaps` and `_reported_oob`
(Python sets, modelled as lists used through membership and insertion). -/
structure VState where
  scene_name : String
  overlap_threshold : Rat
  step : Nat
  _reported_overlaps : List (String × String)
  _reported_oob : List (String × List Violation)
  tracker : IssueTracker
deriving DecidableEq

/-- The fresh validator state installed at the start of `validate`. -/
def initVState (name : String) (thr : Rat) : VState :=
  ⟨name, thr, 0, [], [], ⟨[]⟩⟩

/-- `tuple(sorted([l1, l2]))` on two labels. -/
def sortPair (l1 l2 : String) : String × String :=
  if l1 < l2 then (l1, l2) else (l2, l1)

/-- Body of the OOB loop of `_check_frame` for one `(mob, bbox)` entry:
report an ERROR once per unseen `(label, violations)` key.  Each
violation message embeds the offending coordinate, so the key does too. -/
def oobStep (v : VState) (mb : Mob × BBox) : VState :=
  if is_oob mb.2 = [] then v
  else
    if (mob_label mb.1, is_oob mb.2) ∈ v._reported_oob then v
    else
      { v with
        _reported_oob := (mob_label mb.1, is_oob mb.2) :: v._reported_oob,
        tracker := v.tracker.add Severity.ERROR v.scene_name v.step
          (Msg.oob (mob_label mb.1) mb.2 (is_oob mb.2)) }

/-- Body of the overlap loop of `_check_frame` for one pair of entries:
skip ancestor-related pairs; when the ratio exceeds the threshold report
once per unseen sorted label pair, ERROR above 0.6 and WARN otherwise. -/
def overlapStep (v : VState) (p : (Mob × BBox) × (Mob × BBox)) : VState :=
  if _is_ancestor p.1.1 p.2.1 || _is_ancestor p.2.1 p.1.1 then v
  else
    if overlap_ratio p.1.2 p.2.2 > v.overlap_threshold then
      if sortPair (mob_label p.1.1) (mob_label p.2.1) ∈ v._reported_overlaps then v
      else
        { v with
          _reported_overlaps :=
            sortPair (mob_label p.1.1) (mob_label p.2.1) :: v._reported_overlaps,
          tracker := v.tracker.add
            (if overlap_ratio p.1.2 p.2.2 > 3/5 then Severity.ERROR else Severity.WARN)
            v.scene_name v.step
            (Msg.overlap (overlap_ratio p.1.2 p.2.2) (mob_label p.1.1) (mob_label p.2.1)) }
    else v

/-- The `(mob, bbox)` list of `_check_frame`: every scene mobject whose
`get_bbox` is not `None`, in scene order. -/
def mobsWithBbox : List Mob → List (Mob × BBox)
  | [] => []
  | m :: rest => ((get_bbox m).elim [] fun bb => [(m, bb)]) ++ mobsWithBbox rest

/-- The ordered pairs `(i, j)` with `i < j` visited by the nested overlap
loops. -/
def pairsOf {α : Type} : List α → List (α × α)
  | [] => []
  | x :: xs => xs.map (fun y => (x, y)) ++ pairsOf xs

/-- `SceneValidator._check_frame`: the OOB pass followed by the pairwise
overlap pass (the `final`/verbose printing has no state effect and is
not modelled). -/
def _check_frame (v : VState) (scene : List Mob) : VState :=
  (pairsOf (mobsWithBbox scene)).foldl overlapStep
    ((mobsWithBbox scene).foldl oobStep v)

/-! ## The animation interceptor -/

/-- An animation: its target mobject (`anim.mobject`, possibly `None`)
and its four lifecycle stages.  Each stage transforms the scene's
mobject list and either completes (`ok`) or raises (`error`); in both
cases the resulting list carries whatever partial mutations the stage
performed before returning or raising. -/
structure Anim where
  mobject : Option Mob
  _setup_scene : List Mob → Except (List Mob) (List Mob)
  begin : List Mob → Except (List Mob) (List Mob)
  interpolate : Rat → List Mob → Except (List Mob) (List Mob)
  finish : List Mob → Except (List Mob) (List Mob)

/-- One positional argument of a `play` call: an `Animation` instance or
anything else. -/
inductive PlayArg where
  | notAnim
  | anim (a : Anim)

/-- The guarded `scene.add`: `if mob not in scene.mobjects: scene.add(mob)`;
membership is object identity, `add` appends. -/
def sceneAdd (scene : List Mob) (mob : Mob) : List Mob :=
  if scene.any fun x => x.objId == mob.objId then scene else scene ++ [mob]

/-- The `try` body of `patched_play`: `_setup_scene`, `begin`,
`interpolate(1.0)`, `finish`, stopping at the first stage that raises. -/
def run_lifecycle (a : Anim) (s : List Mob) : Except (List Mob) (List Mob) :=
  match a._setup_scene s with
  | .error e => .error e
  | .ok s1 =>
    match a.begin s1 with
    | .error e => .error e
    | .ok s2 =>
      match a.interpolate 1 s2 with
      | .error e => .error e
      | .ok s3 => a.finish s3

/-- The `except` clause: a raised lifecycle stage is caught (optionally
logged under verbose mode, with no state effect) and the scene keeps the
partial state; a completed lifecycle keeps its final state. -/
def caughtState : Except (List Mob) (List Mob) → List Mob
  | .ok s => s
  | .error s => s

/-- Body of the argument loop of `patched_play`: non-animations are
skipped, as are animations without a target; otherwise add the target if
absent, run the lifecycle catching any exception, then re-add the target
in case cleanup removed it. -/
def playArgStep (scene : List Mob) (arg : PlayArg) : List Mob :=
  match arg with
  | .notAnim => scene
  | .anim a =>
    match a.mobject with
    | none => scene
    | some mob => sceneAdd (caughtState (run_lifecycle a (sceneAdd scene mob))) mob

/-- The argument loop of `patched_play` over the whole batch. -/
def processBatch (scene : List Mob) (args : List PlayArg) : List Mob :=
  args.foldl playArgStep scene

/-- `patched_play`: process the batch, increment the step counter once,
then scan the frame. -/
def patched_play (v : VState) (scene : List Mob) (args : List PlayArg) :
    VState × List Mob :=
  (_check_frame { v with step := v.step + 1 } (processBatch scene args),
    processBatch scene args)

/-- `patched_wait`: `pass` — no state of any kind is touched. -/
def patched_wait {α : Type} (v : VState) (scene : List Mob) (_args : List α) :
    VState × List Mob :=
  (v, scene)

/-- `SceneValidator.validate` on a scene whose `construct` issues the
given sequence of `play` batches: fresh step counter and dedup sets, one
`patched_play` per batch, then the final frame check.  (The path where
`construct` itself raises, which records one extra ERROR, is not needed
by the claims and is not modelled.) -/
def validate (name : String) (thr : Rat) (scene0 : List Mob)
    (batches : List (List PlayArg)) : VState × List Mob :=
  (_check_frame
      (batches.foldl (fun p batch => patched_play p.1 p.2 batch)
        (initVState name thr, scene0)).1
      (batches.foldl (fun p batch => patched_play p.1 p.2 batch)
        (initVState name thr, scene0)).2,
    (batches.foldl (fun p batch => patched_play p.1 p.2 batch)
      (initVState name thr, scene0)).2)

/-! ## Derived notions used by the theorems -/

/-- An issue whose message is an OOB finding records a non-degenerate box. -/
def nondegMsg (i : Issue) : Prop :=
  ∀ (label : String) (bb : BBox) (viols : List Violation),
    i.msg = Msg.oob label bb viols →
    ¬(bb.r - bb.l < 1 / 100000) ∧ ¬(bb.t - bb.b < 1 / 100000)

/-- The OOB dedup key carried by an issue, when it is an OOB issue. -/
def oobKeyOf (i : Issue) : Option (String × List Violation) :=
  match i.msg with
  | .oob label _ viols => some (label, viols)
  | .overlap _ _ _ => none

/-- The overlap dedup key carried by an issue, when it is an overlap
issue. -/
def ovKeyOf (i : Issue) : Option (String × String) :=
  match i.msg with
  | .overlap _ l1 l2 => some (sortPair l1 l2)
  | .oob _ _ _ => none

/-- The number of recorded OOB issues with a given key. -/
def countOOB (issues : List Issue) (k : String × List Violation) : Nat :=
  issues.countP fun i => decide (oobKeyOf i = some k)

/-- The number of recorded overlap issues with a given key. -/
def countOv (issues : List Issue) (k : String × String) : Nat :=
  issues.countP fun i => decide (ovKeyOf i = some k)

/-- The dedup invariant: every key has at most one recorded issue, and
only keys in the corresponding reported set have one. -/
def DedupInv (v : VState) : Prop :=
  (∀ k, countOOB v.tracker.issues k ≤ if k ∈ v._reported_oob then 1 else 0)
  ∧ (∀ k, countOv v.tracker.issues k ≤ if k ∈ v._reported_overlaps then 1 else 0)

/-! ## General fold lemmas -/

/-- A function of the state that every fold step preserves is preserved by
the whole fold. -/
theorem foldl_pres {σ α β : Type _} (f : σ → β) (g : σ → α → σ)
    (h : ∀ s a, f (g s a) = f s) :
    ∀ (l : List α) (s : σ), f (l.foldl g s) = f s := by
  intro l
  induction l with
  | nil => intro s; rfl
  | cons x xs ih => intro s; rw [List.foldl_cons, ih, h]

/-- A predicate preserved by every fold step (for list members) is
preserved by the whole fold. -/
theorem foldl_inv {σ α : Type _} (P : σ → Prop) (g : σ → α → σ) :
    ∀ (l : List α) (s : σ), (∀ s a, a ∈ l → P s → P (g s a)) → P s →
      P (l.foldl g s) := by
  intro l
  induction l with
  | nil => intro s _ hP; exact hP
  | cons x xs ih =>
    intro s hstep hP
    rw [List.foldl_cons]
    exact ih _ (fun s' a ha => hstep s' a (List.mem_cons_of_mem _ ha))
      (hstep s x (List.mem_cons_self _ _) hP)

/-- `oobStep` leaves the step counter unchanged. -/
theorem oobStep_step (v : VState) (mb : Mob × BBox) : (oobStep v mb).step = v.step := by
  unfold oobStep
  split
  · rfl
  · split <;> rfl

/-- `overlapStep` leaves the step counter unchanged. -/
theorem overlapStep_step (v : VState) (p : (Mob × BBox) × (Mob × BBox)) :
    (overlapStep v p).step = v.step := by
  unfold overlapStep
  split
  · rfl
  · split
    · split <;> rfl
    · rfl

/-- `_check_frame` leaves the step counter unchanged. -/
theorem checkFrame_step (v : VState) (scene : List Mob) :
    (_check_frame v scene).step = v.step := by
  unfold _check_frame
  rw [foldl_pres VState.step overlapStep overlapStep_step,
    foldl_pres VState.step oobStep oobStep_step]

/-! ## Geometry lemmas -/

/-- Areas are nonnegative. -/
theorem bbox_area_nonneg (bb : BBox) : 0 ≤ bbox_area bb :=
  mul_nonneg (le_max_left 0 _) (le_max_left 0 _)

/-- The intersection rectangle has area at most that of the first box. -/
theorem inter_area_le_left (b1 b2 : BBox) :
    bbox_area ⟨max b1.l b2.l, min b1.r b2.r, max b1.b b2.b, min b1.t b2.t⟩
      ≤ bbox_area b1 := by
  unfold bbox_area
  exact mul_le_mul
    (max_le_max le_rfl (sub_le_sub (min_le_left _ _) (le_max_left _ _)))
    (max_le_max le_rfl (sub_le_sub (min_le_left _ _) (le_max_left _ _)))
    (le_max_left 0 _) (le_max_left 0 _)

/-- The intersection rectangle has area at most that of the second box. -/
theorem inter_area_le_right (b1 b2 : BBox) :
    bbox_area ⟨max b1.l b2.l, min b1.r b2.r, max b1.b b2.b, min b1.t b2.t⟩
      ≤ bbox_area b2 := by
  unfold bbox_area
  exact mul_le_mul
    (max_le_max le_rfl (sub_le_sub (min_le_right _ _) (le_max_right _ _)))
    (max_le_max le_rfl (sub_le_sub (min_le_right _ _) (le_max_right _ _)))
    (le_max_left 0 _) (le_max_left 0 _)

/-- A successful intersection is the rectangle of clamped coordinates. -/
theorem bbox_intersection_some {b1 b2 inter : BBox}
    (h : bbox_intersection b1 b2 = some inter) :
    inter = ⟨max b1.l b2.l, min b1.r b2.r, max b1.b b2.b, min b1.t b2.t⟩ := by
  unfold bbox_intersection at h
  split at h
  · exact (Option.some_inj.mp h).symm
  · cases h

/-- Claim C4: `overlap_ratio` is the intersection area divided by the smaller
box's area and lies in `[0, 1]`; it is `0` when either area is below
`1e-6`, when the boxes do not intersect, and in particular intersection
fails (returns `none`) whenever the boxes merely touch on an axis
(non-strict contact). -/
theorem overlap_ratio_spec (b1 b2 : BBox) :
    (0 ≤ overlap_ratio b1 b2 ∧ overlap_ratio b1 b2 ≤ 1)
    ∧ (bbox_intersection b1 b2 = none → overlap_ratio b1 b2 = 0)
    ∧ (min b1.r b2.r ≤ max b1.l b2.l ∨ min b1.t b2.t ≤ max b1.b b2.b →
        bbox_intersection b1 b2 = none)
    ∧ (bbox_area b1 < 1 / 1000000 ∨ bbox_area b2 < 1 / 1000000 →
        overlap_ratio b1 b2 = 0)
    ∧ (∀ inter : BBox, bbox_intersection b1 b2 = some inter →
        ¬ min (bbox_area b1) (bbox_area b2) < 1 / 1000000 →
        overlap_ratio b1 b2
          = bbox_area inter / min (bbox_area b1) (bbox_area b2)) := by
  refine ⟨⟨?_, ?_⟩, ?_, ?_, ?_, ?_⟩
  · unfold overlap_ratio
    cases hcase : bbox_intersection b1 b2 with
    | none => simp [Option.elim]
    | some inter =>
      simp only [Option.elim]
      unfold ratio_of
      split
      · exact le_refl 0
      · next hnot =>
        have hpos : (0 : Rat) < min (bbox_area b1) (bbox_area b2) :=
          lt_of_lt_of_le (by norm_num) (not_lt.mp hnot)
        exact div_nonneg (bbox_area_nonneg _) (le_of_lt hpos)
  · unfold overlap_ratio
    cases hcase : bbox_intersection b1 b2 with
    | none => simp [Option.elim]
    | some inter =>
      simp only [Option.elim]
      unfold ratio_of
      split
      · norm_num
      · next hnot =>
        have hpos : (0 : Rat) < min (bbox_area b1) (bbox_area b2) :=
          lt_of_lt_of_le (by norm_num) (not_lt.mp hnot)
        rw [div_le_one hpos]
        rw [bbox_intersection_some hcase]
        exact le_min (inter_area_le_left b1 b2) (inter_area_le_right b1 b2)
  · intro h
    unfold overlap_ratio
    rw [h]
    rfl
  · intro h
    unfold bbox_intersection
    rw [if_neg]
    rintro ⟨h1, h2⟩
    rcases h with h | h
    · exact absurd h1 (not_lt.mpr h)
    · exact absurd h2 (not_lt.mpr h)
  · intro h
    have hmin : min (bbox_area b1) (bbox_area b2) < 1 / 1000000 :=
      min_lt_iff.mpr h
    unfold overlap_ratio
    cases hcase : bbox_intersection b1 b2 with
    | none => simp [Option.elim]
    | some inter =>
      simp only [Option.elim]
      unfold ratio_of
      rw [if_pos hmin]
  · intro inter h hnot
    unfold overlap_ratio
    rw [h]
    simp only [Option.elim]
    unfold ratio_of
    rw [if_neg hnot]

/-- Claim C4 witness: the theorem applied at concrete boxes, discharging each
hypothesis: unit boxes overlap fully with ratio `area / min-area`; boxes
touching along an edge have no intersection; a zero-width box forces
ratio `0`. -/
theorem overlap_ratio_spec_witness :
    (0 ≤ overlap_ratio ⟨0, 1, 0, 1⟩ ⟨7/20, 27/20, 0, 1⟩
      ∧ overlap_ratio ⟨0, 1, 0, 1⟩ ⟨7/20, 27/20, 0, 1⟩ ≤ 1)
    ∧ bbox_intersection ⟨0, 1, 0, 1⟩ ⟨1, 2, 0, 1⟩ = none
    ∧ overlap_ratio ⟨0, 0, 0, 1⟩ ⟨0, 1, 0, 1⟩ = 0
    ∧ overlap_ratio ⟨0, 1, 0, 1⟩ ⟨0, 1, 0, 1⟩
        = bbox_area ⟨0, 1, 0, 1⟩
          / min (bbox_area ⟨0, 1, 0, 1⟩) (bbox_area ⟨0, 1, 0, 1⟩) :=
  ⟨(overlap_ratio_spec ⟨0, 1, 0, 1⟩ ⟨7/20, 27/20, 0, 1⟩).1,
    (overlap_ratio_spec ⟨0, 1, 0, 1⟩ ⟨1, 2, 0, 1⟩).2.2.1 (Or.inl (by norm_num)),
    (overlap_ratio_spec ⟨0, 0, 0, 1⟩ ⟨0, 1, 0, 1⟩).2.2.2.1
      (Or.inl (by norm_num [bbox_area])),
    (overlap_ratio_spec ⟨0, 1, 0, 1⟩ ⟨0, 1, 0, 1⟩).2.2.2.2 ⟨0, 1, 0, 1⟩
      (by norm_num [bbox_intersection]) (by norm_num [bbox_area])⟩

/-! ## Tracker lemmas -/

/-- Folding `add` over a list of issues appends exactly that list. -/
theorem foldl_add_issues :
    ∀ (l : List Issue) (t : IssueTracker),
      (l.foldl (fun t i => t.add i.severity i.scene_name i.step i.msg) t).issues
        = t.issues ++ l := by
  intro l
  induction l with
  | nil => intro t; simp
  | cons i rest ih =>
    intro t
    rw [List.foldl_cons, ih]
    show (t.add i.severity i.scene_name i.step i.msg).issues ++ rest
      = t.issues ++ i :: rest
    unfold IssueTracker.add
    simp

/-- Claim C8: `add` is append-only with no deduplication (each call grows the
log by exactly one record, duplicates included), and `report` returns
`true` iff zero issues were ever added. -/
theorem report_true_iff_no_issues :
    (∀ (t : IssueTracker) (sev : Severity) (sc : String) (st : Nat) (m : Msg),
      (t.add sev sc st m).issues = t.issues ++ [⟨sev, sc, st, m⟩]
        ∧ (t.add sev sc st m).issues.length = t.issues.length + 1)
    ∧ (∀ t : IssueTracker, t.report = true ↔ t.issues = [])
    ∧ (∀ l : List Issue,
        (IssueTracker.report
          (l.foldl (fun t i => t.add i.severity i.scene_name i.step i.msg)
            ⟨[]⟩) = true)
        ↔ l = []) := by
  refine ⟨fun t sev sc st m => ⟨rfl, by simp [IssueTracker.add]⟩, ?_, ?_⟩
  · intro t
    unfold IssueTracker.report
    exact List.isEmpty_iff
  · intro l
    unfold IssueTracker.report
    rw [foldl_add_issues l ⟨[]⟩]
    simp [List.isEmpty_iff]

/-- Claim C9: `patched_wait` is a no-op — no scan, no step change, no dedup-set
change, no issue added, no change to the scene's mobject list. -/
theorem wait_is_noop {α : Type} (v : VState) (scene : List Mob) (args : List α) :
    patched_wait v scene args = (v, scene)
    ∧ (patched_wait v scene args).1.step = v.step
    ∧ (patched_wait v scene args).1._reported_oob = v._reported_oob
    ∧ (patched_wait v scene args).1._reported_overlaps = v._reported_overlaps
    ∧ (patched_wait v scene args).1.tracker = v.tracker
    ∧ (patched_wait v scene args).2 = scene :=
  ⟨rfl, rfl, rfl, rfl, rfl, rfl⟩

/-- Claim C10: every `patched_play` call increments the step counter by exactly
one and performs exactly one frame scan (on the batch's final scene
state), whatever the arguments; non-animation arguments and animations
with no target mobject leave the scene untouched. -/
theorem play_step_and_skip (v : VState) (scene : List Mob) (args : List PlayArg) :
    (patched_play v scene args).1.step = v.step + 1
    ∧ patched_play v scene args
        = (_check_frame { v with step := v.step + 1 } (processBatch scene args),
          processBatch scene args)
    ∧ playArgStep scene PlayArg.notAnim = scene
    ∧ (∀ a : Anim, a.mobject = none → playArgStep scene (PlayArg.anim a) = scene) := by
  refine ⟨?_, rfl, rfl, ?_⟩
  · show (_check_frame { v with step := v.step + 1 } (processBatch scene args)).step
      = v.step + 1
    rw [checkFrame_step]
  · intro a ha
    simp only [playArgStep, ha]

/-- Claim C10 witness: `play_step_and_skip` applied to a concrete state and a
concrete animation whose target mobject is `None`. -/
theorem play_step_and_skip_witness :
    (Anim.mk none Except.ok Except.ok (fun _ => Except.ok) Except.ok).mobject = none
    ∧ playArgStep []
        (PlayArg.anim (Anim.mk none Except.ok Except.ok (fun _ => Except.ok) Except.ok))
      = [] :=
  ⟨rfl,
    (play_step_and_skip (initVState "S" (3/10)) [] []).2.2.2
      (Anim.mk none Except.ok Except.ok (fun _ => Except.ok) Except.ok) rfl⟩

/-- Claim C7: a lifecycle stage that raises is caught: the batch's remaining
animations are still processed from the partial state the failing stage
left behind (with the target re-added), and the step increment and the
frame scan still happen. -/
theorem lifecycle_error_recovery (v : VState) (scene : List Mob)
    (pre post : List PlayArg) (a : Anim) (mob : Mob) (s' : List Mob)
    (hmob : a.mobject = some mob)
    (herr : run_lifecycle a (sceneAdd (processBatch scene pre) mob)
      = Except.error s') :
    patched_play v scene (pre ++ PlayArg.anim a :: post)
      = (_check_frame { v with step := v.step + 1 }
          (processBatch (sceneAdd s' mob) post),
        processBatch (sceneAdd s' mob) post) := by
  have h1 : processBatch scene (pre ++ PlayArg.anim a :: post)
      = processBatch (playArgStep (processBatch scene pre) (PlayArg.anim a)) post := by
    unfold processBatch
    rw [List.foldl_append, List.foldl_cons]
  have h2 : playArgStep (processBatch scene pre) (PlayArg.anim a)
      = sceneAdd s' mob := by
    simp only [playArgStep, hmob, herr, caughtState]
  unfold patched_play
  rw [h1, h2]

/-- Claim C7 witness: `lifecycle_error_recovery` applied to a concrete batch in
which the single animation's `_setup_scene` stage raises. -/
theorem lifecycle_error_recovery_witness :
    (Anim.mk (some (Mob.mk 1 "M" true (some ⟨0, 1, 0, 1⟩) []))
        Except.error Except.ok (fun _ => Except.ok) Except.ok).mobject
      = some (Mob.mk 1 "M" true (some ⟨0, 1, 0, 1⟩) [])
    ∧ run_lifecycle
        (Anim.mk (some (Mob.mk 1 "M" true (some ⟨0, 1, 0, 1⟩) []))
          Except.error Except.ok (fun _ => Except.ok) Except.ok)
        (sceneAdd (processBatch [] [])
          (Mob.mk 1 "M" true (some ⟨0, 1, 0, 1⟩) []))
      = Except.error [Mob.mk 1 "M" true (some ⟨0, 1, 0, 1⟩) []]
    ∧ patched_play (initVState "S" (3/10)) []
        ([] ++ PlayArg.anim
          (Anim.mk (some (Mob.mk 1 "M" true (some ⟨0, 1, 0, 1⟩) []))
            Except.error Except.ok (fun _ => Except.ok) Except.ok) :: [])
      = (_check_frame { initVState "S" (3/10) with step := (initVState "S" (3/10)).step + 1 }
          (processBatch
            (sceneAdd [Mob.mk 1 "M" true (some ⟨0, 1, 0, 1⟩) []]
              (Mob.mk 1 "M" true (some ⟨0, 1, 0, 1⟩) [])) []),
        processBatch
          (sceneAdd [Mob.mk 1 "M" true (some ⟨0, 1, 0, 1⟩) []]
            (Mob.mk 1 "M" true (some ⟨0, 1, 0, 1⟩) [])) []) :=
  ⟨rfl, rfl,
    lifecycle_error_recovery (initVState "S" (3/10)) [] [] []
      (Anim.mk (some (Mob.mk 1 "M" true (some ⟨0, 1, 0, 1⟩) []))
        Except.error Except.ok (fun _ => Except.ok) Except.ok)
      (Mob.mk 1 "M" true (some ⟨0, 1, 0, 1⟩) [])
      [Mob.mk 1 "M" true (some ⟨0, 1, 0, 1⟩) []] rfl rfl⟩

/-! ## Ancestor-relation lemmas -/

mutual

/-- `_is_ancestor a n` holds iff some strict descendant of `a` has `n`'s
object identity. -/
theorem _is_ancestor_iff_aux (a n : Mob) :
    _is_ancestor a n = true ↔ ∃ d, Descends a d ∧ d.objId = n.objId :=
  match a with
  | .mk i lab hp c subs => by
    show anyIsAncestor subs n = true ↔ _
    rw [anyIsAncestor_iff_aux subs n]
    constructor
    · rintro ⟨s, hs, h | ⟨d, hd, hid⟩⟩
      · exact ⟨s, Descends.child (a := Mob.mk i lab hp c subs) hs, h⟩
      · exact ⟨d, Descends.step (a := Mob.mk i lab hp c subs) hs hd, hid⟩
    · rintro ⟨d, hdesc, hid⟩
      cases hdesc with
      | child hs => exact ⟨d, hs, Or.inl hid⟩
      | step hs hd => exact ⟨_, hs, Or.inr ⟨d, hd, hid⟩⟩

/-- The submobject loop of `_is_ancestor`, characterised. -/
theorem anyIsAncestor_iff_aux (l : List Mob) (n : Mob) :
    anyIsAncestor l n = true
      ↔ ∃ s, s ∈ l ∧ (s.objId = n.objId ∨ ∃ d, Descends s d ∧ d.objId = n.objId) :=
  match l with
  | [] => by simp [anyIsAncestor]
  | s :: rest => by
    show (s.objId == n.objId || _is_ancestor s n || anyIsAncestor rest n) = true ↔ _
    rw [Bool.or_eq_true, Bool.or_eq_true, beq_iff_eq,
      _is_ancestor_iff_aux s n, anyIsAncestor_iff_aux rest n]
    constructor
    · rintro ((h | h) | ⟨s', hmem, hcase⟩)
      · exact ⟨s, List.mem_cons_self _ _, Or.inl h⟩
      · exact ⟨s, List.mem_cons_self _ _, Or.inr h⟩
      · exact ⟨s', List.mem_cons_of_mem _ hmem, hcase⟩
    · rintro ⟨s', hmem, hcase⟩
      rcases List.mem_cons.mp hmem with heq | hmem'
      · subst heq
        rcases hcase with h | h
        · exact Or.inl (Or.inl h)
        · exact Or.inl (Or.inr h)
      · exact Or.inr ⟨s', hmem', hcase⟩

end

/-- A mobject's own id is among the ids of its tree. -/
theorem objId_mem_allIds (m : Mob) : m.objId ∈ allIds m := by
  cases m with
  | mk i lab hp c subs =>
    show i ∈ i :: allIdsList subs
    exact List.mem_cons_self _ _

/-- Ids of a member's tree are ids of the forest. -/
theorem allIds_subset_allIdsList :
    ∀ (l : List Mob) (m : Mob), m ∈ l → ∀ x, x ∈ allIds m → x ∈ allIdsList l := by
  intro l
  induction l with
  | nil => intro m hm; cases hm
  | cons hd tl ih =>
    intro m hm x hx
    rcases List.mem_cons.mp hm with heq | hm'
    · subst heq
      exact List.mem_append_left _ hx
    · exact List.mem_append_right _ (ih m hm' x hx)

/-- Ids inside a mobject's submobject forest are ids of its tree. -/
theorem mem_allIds_of_sub {s : Mob} {x : Nat}
    (hx : x ∈ allIdsList s.submobjects) : x ∈ allIds s := by
  cases s with
  | mk i lab hp c subs =>
    show x ∈ i :: allIdsList subs
    exact List.mem_cons_of_mem _ hx

/-- The id of a strict descendant occurs in the submobject forest. -/
theorem descends_objId_mem {a d : Mob} (h : Descends a d) :
    d.objId ∈ allIdsList a.submobjects := by
  induction h with
  | child hs => exact allIds_subset_allIdsList _ _ hs _ (objId_mem_allIds _)
  | step hs _ ih =>
    exact allIds_subset_allIdsList _ _ hs _ (mem_allIds_of_sub ih)

/-- Claim C6: `_is_ancestor a n` is true iff `n` (by object identity) is
reachable from `a` through one or more child steps; when the tree's ids
are distinct — as Python object identity guarantees for live objects — a
node is never its own ancestor; and an ancestor-related pair is skipped
by the overlap pass, whatever its geometry. -/
theorem is_ancestor_spec :
    (∀ a n : Mob, _is_ancestor a n = true ↔ ∃ d, Descends a d ∧ d.objId = n.objId)
    ∧ (∀ a : Mob, (allIds a).Nodup → _is_ancestor a a = false)
    ∧ (∀ (v : VState) (mi mj : Mob) (bi bj : BBox),
        _is_ancestor mi mj = true ∨ _is_ancestor mj mi = true →
        overlapStep v ((mi, bi), (mj, bj)) = v) := by
  refine ⟨_is_ancestor_iff_aux, ?_, ?_⟩
  · intro a hnd
    by_contra hne
    rcases Bool.eq_false_or_eq_true (_is_ancestor a a) with h0 | h0
    · obtain ⟨d, hdesc, hid⟩ := (_is_ancestor_iff_aux a a).mp h0
      have hmem : a.objId ∈ allIdsList a.submobjects := hid ▸ descends_objId_mem hdesc
      cases a with
      | mk i lab hp c subs =>
        have hnd' : i ∉ allIdsList subs ∧ (allIdsList subs).Nodup :=
          List.nodup_cons.mp hnd
        exact hnd'.1 hmem
    · exact hne h0
  · intro v mi mj bi bj h
    rcases h with h | h <;> simp [overlapStep, h]

/-- Claim C6 witness: `is_ancestor_spec` applied to a concrete two-level tree:
the parent is an ancestor of its child, not of itself (its ids are
distinct), and the overlap pass skips the ancestor-related pair. -/
theorem is_ancestor_spec_witness :
    _is_ancestor (Mob.mk 1 "G" true none [Mob.mk 2 "C" true (some ⟨0, 1, 0, 1⟩) []])
        (Mob.mk 2 "C" true (some ⟨0, 1, 0, 1⟩) []) = true
    ∧ _is_ancestor (Mob.mk 1 "G" true none [Mob.mk 2 "C" true (some ⟨0, 1, 0, 1⟩) []])
        (Mob.mk 1 "G" true none [Mob.mk 2 "C" true (some ⟨0, 1, 0, 1⟩) []]) = false
    ∧ overlapStep (initVState "S" (3/10))
        ((Mob.mk 1 "G" true none [Mob.mk 2 "C" true (some ⟨0, 1, 0, 1⟩) []], ⟨0, 1, 0, 1⟩),
          (Mob.mk 2 "C" true (some ⟨0, 1, 0, 1⟩) [], ⟨0, 1, 0, 1⟩))
      = initVState "S" (3/10) :=
  ⟨(is_ancestor_spec.1 _ _).mpr
      ⟨Mob.mk 2 "C" true (some ⟨0, 1, 0, 1⟩) [],
        Descends.child (List.mem_cons_self _ _), rfl⟩,
    is_ancestor_spec.2.1 _ (by decide),
    is_ancestor_spec.2.2 _ _ _ _ _
      (Or.inl ((is_ancestor_spec.1 _ _).mpr
        ⟨Mob.mk 2 "C" true (some ⟨0, 1, 0, 1⟩) [],
          Descends.child (List.mem_cons_self _ _), rfl⟩))⟩

/-! ## Degenerate-box lemmas -/

/-- A box returned by `get_bbox` is never degenerate. -/
theorem get_bbox_nondeg {m : Mob} {bb : BBox} (h : get_bbox m = some bb) :
    ¬(bb.r - bb.l < 1 / 100000) ∧ ¬(bb.t - bb.b < 1 / 100000) := by
  unfold get_bbox at h
  split at h
  · cases h
  · cases hc : m.corners with
    | none => rw [hc] at h; cases h
    | some c =>
      rw [hc, Option.some_bind] at h
      split at h
      · cases h
      · next hnot =>
        injection h with h'
        subst h'
        exact not_or.mp hnot

/-- `mobsWithBbox` distributes over append. -/
theorem mobsWithBbox_append :
    ∀ l1 l2 : List Mob, mobsWithBbox (l1 ++ l2) = mobsWithBbox l1 ++ mobsWithBbox l2 := by
  intro l1
  induction l1 with
  | nil => intro l2; rfl
  | cons hd tl ih =>
    intro l2
    show ((get_bbox hd).elim [] fun bb => [(hd, bb)]) ++ mobsWithBbox (tl ++ l2) = _
    rw [ih]
    simp [mobsWithBbox]

/-- A mobject without a box contributes nothing to `mobsWithBbox`. -/
theorem mobsWithBbox_none {m : Mob} (h : get_bbox m = none) (rest : List Mob) :
    mobsWithBbox (m :: rest) = mobsWithBbox rest := by
  show ((get_bbox m).elim [] fun bb => [(m, bb)]) ++ mobsWithBbox rest = _
  rw [h]
  rfl

/-- Every entry of `mobsWithBbox` is a successful `get_bbox` result. -/
theorem mobsWithBbox_mem :
    ∀ (scene : List Mob) (m : Mob) (bb : BBox),
      (m, bb) ∈ mobsWithBbox scene → get_bbox m = some bb := by
  intro scene
  induction scene with
  | nil => intro m bb h; cases h
  | cons hd tl ih =>
    intro m bb h
    have h' : (m, bb) ∈ ((get_bbox hd).elim [] fun b => [(hd, b)]) ++ mobsWithBbox tl := h
    rcases List.mem_append.mp h' with hl | hr
    · cases hc : get_bbox hd with
      | none => rw [hc] at hl; cases hl
      | some b' =>
        rw [hc] at hl
        have : (m, bb) = (hd, b') := List.mem_singleton.mp hl
        have hm : m = hd := congrArg Prod.fst this
        have hb : bb = b' := congrArg Prod.snd this
        rw [hm, hb, hc]
    · exact ih m bb hr

/-- `oobStep` only ever records the box of its own (non-degenerate) entry. -/
theorem oobStep_nondeg {v : VState} {mb : Mob × BBox}
    (hbb : ¬(mb.2.r - mb.2.l < 1 / 100000) ∧ ¬(mb.2.t - mb.2.b < 1 / 100000))
    (h : ∀ i ∈ v.tracker.issues, nondegMsg i) :
    ∀ i ∈ (oobStep v mb).tracker.issues, nondegMsg i := by
  unfold oobStep
  split
  · exact h
  · split
    · exact h
    · intro i hi
      have hi' : i ∈ v.tracker.issues ++
          [⟨Severity.ERROR, v.scene_name, v.step,
            Msg.oob (mob_label mb.1) mb.2 (is_oob mb.2)⟩] := hi
      rcases List.mem_append.mp hi' with hold | hnew
      · exact h i hold
      · rw [List.mem_singleton.mp hnew]
        intro label bb viols heq
        injection heq with h1 h2 h3
        rw [← h2]
        exact hbb

/-- `overlapStep` never records an OOB message. -/
theorem overlapStep_nondeg {v : VState} {p : (Mob × BBox) × (Mob × BBox)}
    (h : ∀ i ∈ v.tracker.issues, nondegMsg i) :
    ∀ i ∈ (overlapStep v p).tracker.issues, nondegMsg i := by
  unfold overlapStep
  split
  · exact h
  · split
    · split
      · exact h
      · intro i hi
        have hi' : i ∈ v.tracker.issues ++
            [⟨(if overlap_ratio p.1.2 p.2.2 > 3/5 then Severity.ERROR else Severity.WARN),
              v.scene_name, v.step,
              Msg.overlap (overlap_ratio p.1.2 p.2.2)
                (mob_label p.1.1) (mob_label p.2.1)⟩] := hi
        rcases List.mem_append.mp hi' with hold | hnew
        · exact h i hold
        · rw [List.mem_singleton.mp hnew]
          intro label bb viols heq
          cases heq
    · exact h

/-- Issues produced by a frame scan only record non-degenerate boxes. -/
theorem checkFrame_nondeg {v : VState} (scene : List Mob)
    (h : ∀ i ∈ v.tracker.issues, nondegMsg i) :
    ∀ i ∈ (_check_frame v scene).tracker.issues, nondegMsg i := by
  unfold _check_frame
  refine foldl_inv (fun v' => ∀ i ∈ v'.tracker.issues, nondegMsg i) overlapStep
    (pairsOf (mobsWithBbox scene)) _ (fun s a _ hP => overlapStep_nondeg hP) ?_
  refine foldl_inv (fun v' => ∀ i ∈ v'.tracker.issues, nondegMsg i) oobStep
    (mobsWithBbox scene) v (fun s mb hmem hP => ?_) h
  exact oobStep_nondeg (get_bbox_nondeg (mobsWithBbox_mem scene mb.1 mb.2 hmem)) hP

/-- Issues produced by a whole validation run only record non-degenerate
boxes. -/
theorem validate_nondeg (name : String) (thr : Rat) (scene0 : List Mob)
    (batches : List (List PlayArg)) :
    ∀ i ∈ (validate name thr scene0 batches).1.tracker.issues, nondegMsg i := by
  unfold validate
  apply checkFrame_nondeg
  refine foldl_inv
    (fun p : VState × List Mob => ∀ i ∈ p.1.tracker.issues, nondegMsg i)
    (fun p batch => patched_play p.1 p.2 batch) batches (initVState name thr, scene0)
    (fun p batch _ hP => ?_) ?_
  · exact checkFrame_nondeg _ hP
  · intro i hi
    cases hi

/-- Claim C5: a mobject whose queried box is thinner than `1e-5` on either
axis, or which has no points and no submobjects, gets no box from
`get_bbox`; such a mobject is invisible to both the OOB pass and the
overlap pass of every frame scan, and consequently no Issue of a whole
validation run ever records a degenerate box. -/
theorem degenerate_excluded :
    (∀ (m : Mob) (bb : BBox), m.corners = some bb →
      bb.r - bb.l < 1 / 100000 ∨ bb.t - bb.b < 1 / 100000 → get_bbox m = none)
    ∧ (∀ m : Mob, m.hasPoints = false → m.submobjects = [] → get_bbox m = none)
    ∧ (∀ (v : VState) (pre post : List Mob) (m : Mob), get_bbox m = none →
      _check_frame v (pre ++ m :: post) = _check_frame v (pre ++ post))
    ∧ (∀ (name : String) (thr : Rat) (scene0 : List Mob)
        (batches : List (List PlayArg)) (i : Issue),
      i ∈ (validate name thr scene0 batches).1.tracker.issues → nondegMsg i) := by
  refine ⟨?_, ?_, ?_, ?_⟩
  · intro m bb hc hdeg
    unfold get_bbox
    split
    · rfl
    · rw [hc, Option.some_bind, if_pos hdeg]
  · intro m h1 h2
    simp [get_bbox, h1, h2]
  · intro v pre post m h
    unfold _check_frame
    rw [mobsWithBbox_append, mobsWithBbox_none h post, ← mobsWithBbox_append]
  · intro name thr scene0 batches i hi
    exact validate_nondeg name thr scene0 batches i hi

/-- Claim C5 witness: `degenerate_excluded` applied to concrete mobjects: a
zero-width box gets no bbox; a pointless, childless mobject gets no
bbox; inserting the degenerate mobject into a scene does not change the
scan; and the issue recorded for a concrete OOB square satisfies
`nondegMsg`. -/
theorem degenerate_excluded_witness :
    get_bbox (Mob.mk 5 "Dot" true (some ⟨0, 0, 0, 1⟩) []) = none
    ∧ get_bbox (Mob.mk 6 "Empty" false none []) = none
    ∧ _check_frame (initVState "S" (3/10))
        ([] ++ Mob.mk 5 "Dot" true (some ⟨0, 0, 0, 1⟩) [] :: [])
      = _check_frame (initVState "S" (3/10)) ([] ++ [])
    ∧ nondegMsg ⟨Severity.ERROR, "S", 0,
        Msg.oob "Square" ⟨-9, -8, -1, 1⟩ [⟨Edge.LEFT, -9, -(64/9)⟩]⟩ :=
  ⟨degenerate_excluded.1 _ ⟨0, 0, 0, 1⟩ rfl (Or.inl (by norm_num)),
    degenerate_excluded.2.1 _ rfl rfl,
    degenerate_excluded.2.2.1 _ [] [] _
      (degenerate_excluded.1 _ ⟨0, 0, 0, 1⟩ rfl (Or.inl (by norm_num))),
    degenerate_excluded.2.2.2 "S" (3/10)
      [Mob.mk 1 "Square" true (some ⟨-9, -8, -1, 1⟩) []] [] _
      (by
        norm_num [validate, initVState, _check_frame, mobsWithBbox, get_bbox,
          Mob.hasPoints, Mob.submobjects, Mob.corners, mob_label, pairsOf,
          oobStep, overlapStep, is_oob, HALF_W, HALF_H, FRAME_W, FRAME_H,
          EDGE_TOL, IssueTracker.add])⟩

/-! ## Step-counter lemmas -/

/-- Folding the play batches adds exactly one step per batch. -/
theorem batches_step_count :
    ∀ (batches : List (List PlayArg)) (v : VState) (s : List Mob),
      ((batches.foldl (fun p batch => patched_play p.1 p.2 batch) (v, s)).1).step
        = v.step + batches.length := by
  intro batches
  induction batches with
  | nil => intro v s; rfl
  | cons b rest ih =>
    intro v s
    rw [List.foldl_cons]
    have h1 : (patched_play v s b).1.step = v.step + 1 := by
      show (_check_frame { v with step := v.step + 1 } (processBatch s b)).step
        = v.step + 1
      rw [checkFrame_step]
    have h2 := ih (patched_play v s b).1 (patched_play v s b).2
    rw [h1] at h2
    rw [h2]
    simp [Nat.add_assoc, Nat.add_comm 1 rest.length]

/-- Claim C3 (amended): the step counter starts at 0 and is incremented exactly
once per play batch, before that batch's frame scan; the final post-run
scan happens at the step value of the last batch, with no further
increment, so after a run of `n` batches the counter is `n`, not `n + 1`. -/
theorem step_counter_spec (name : String) (thr : Rat) (scene0 : List Mob)
    (batches : List (List PlayArg)) (v : VState) (s : List Mob)
    (b : List PlayArg) :
    (initVState name thr).step = 0
    ∧ (patched_play v s b).1.step = v.step + 1
    ∧ patched_play v s b
        = (_check_frame { v with step := v.step + 1 } (processBatch s b),
          processBatch s b)
    ∧ (validate name thr scene0 batches).1.step = batches.length := by
  refine ⟨rfl, ?_, rfl, ?_⟩
  · show (_check_frame { v with step := v.step + 1 } (processBatch s b)).step
      = v.step + 1
    rw [checkFrame_step]
  · show (_check_frame _ _).step = batches.length
    rw [checkFrame_step, batches_step_count]
    show 0 + batches.length = batches.length
    rw [Nat.zero_add]

/-- Claim C3 counterexample: in a run with zero play batches the final post-run
scan still happens, but at step 0 — the issue it records is tagged with
step 0 and the counter ends at 0, not at the extra increment the claim
requires for the final scan. -/
theorem step_counter_counterexample :
    (validate "S" (3/10) [Mob.mk 1 "Square" true (some ⟨-9, -8, -1, 1⟩) []] []).1.step
      = 0
    ∧ (List.map Issue.step
        (validate "S" (3/10)
          [Mob.mk 1 "Square" true (some ⟨-9, -8, -1, 1⟩) []] []).1.tracker.issues)
      = [0] := by
  constructor
  · show (validate "S" (3/10) [Mob.mk 1 "Square" true (some ⟨-9, -8, -1, 1⟩) []] []).1.step
      = 0
    unfold validate
    rw [checkFrame_step]
    rfl
  · norm_num [validate, initVState, _check_frame, mobsWithBbox, get_bbox,
      Mob.hasPoints, Mob.submobjects, Mob.corners, mob_label, pairsOf,
      oobStep, overlapStep, is_oob, HALF_W, HALF_H, FRAME_W, FRAME_H,
      EDGE_TOL, IssueTracker.add]

/-- Claim C2 (amended): for a scanned non-ancestor pair with a fresh dedup key,
an overlap issue is produced exactly when the ratio exceeds the
configured threshold, with severity ERROR when the ratio exceeds 0.60
and WARN otherwise — so a ratio above 0.60 that does not exceed the
threshold produces nothing; an element with a fresh OOB key and at least
one violated edge always produces an ERROR issue. -/
theorem severity_rule (v : VState) (mi mj m : Mob) (bi bj bb : BBox) :
    (_is_ancestor mi mj = false → _is_ancestor mj mi = false →
      sortPair (mob_label mi) (mob_label mj) ∉ v._reported_overlaps →
      ((overlap_ratio bi bj > v.overlap_threshold →
        (overlapStep v ((mi, bi), (mj, bj))).tracker.issues
          = v.tracker.issues
            ++ [⟨(if overlap_ratio bi bj > 3/5 then Severity.ERROR else Severity.WARN),
              v.scene_name, v.step,
              Msg.overlap (overlap_ratio bi bj) (mob_label mi) (mob_label mj)⟩])
      ∧ (¬ overlap_ratio bi bj > v.overlap_threshold →
          overlapStep v ((mi, bi), (mj, bj)) = v)))
    ∧ (is_oob bb ≠ [] → (mob_label m, is_oob bb) ∉ v._reported_oob →
      (oobStep v (m, bb)).tracker.issues
        = v.tracker.issues
          ++ [⟨Severity.ERROR, v.scene_name, v.step,
            Msg.oob (mob_label m) bb (is_oob bb)⟩]) := by
  constructor
  · intro h1 h2 hkey
    constructor
    · intro hratio
      simp [overlapStep, h1, h2, hkey, hratio, IssueTracker.add]
    · intro hratio
      simp [overlapStep, h1, h2, hratio]
  · intro hvio hkey
    simp [oobStep, hvio, hkey, IssueTracker.add]

/-- Claim C2 counterexample: with threshold 0.70, two fresh unrelated elements
whose overlap ratio is 0.65 — strictly above 0.60 — produce no issue at
all, because the ratio does not exceed the configured threshold. -/
theorem severity_rule_counterexample :
    overlap_ratio ⟨0, 1, 0, 1⟩ ⟨7/20, 27/20, 0, 1⟩ > 3/5
    ∧ (_check_frame (initVState "S" (7/10))
        [Mob.mk 1 "A" true (some ⟨0, 1, 0, 1⟩) [],
          Mob.mk 2 "B" true (some ⟨7/20, 27/20, 0, 1⟩) []]).tracker.issues = [] := by
  constructor
  · norm_num [overlap_ratio, bbox_intersection, ratio_of, bbox_area]
  · norm_num [_check_frame, mobsWithBbox, get_bbox, Mob.hasPoints,
      Mob.submobjects, Mob.corners, mob_label, pairsOf, oobStep, overlapStep,
      is_oob, _is_ancestor, anyIsAncestor, overlap_ratio, bbox_intersection,
      ratio_of, bbox_area, sortPair, HALF_W, HALF_H, FRAME_W, FRAME_H,
      EDGE_TOL, initVState, IssueTracker.add]

/-- Claim C2 witness: `severity_rule` applied at threshold 0.30 to the concrete
pair with ratio 0.65 (reported as an issue) and to a concrete OOB square
(reported as an ERROR). -/
theorem severity_rule_witness :
    (overlapStep (initVState "S" (3/10))
        ((Mob.mk 1 "A" true (some ⟨0, 1, 0, 1⟩) [], ⟨0, 1, 0, 1⟩),
          (Mob.mk 2 "B" true (some ⟨7/20, 27/20, 0, 1⟩) [],
            ⟨7/20, 27/20, 0, 1⟩))).tracker.issues
      = []
        ++ [⟨(if overlap_ratio ⟨0, 1, 0, 1⟩ ⟨7/20, 27/20, 0, 1⟩ > 3/5
              then Severity.ERROR else Severity.WARN), "S", 0,
          Msg.overlap (overlap_ratio ⟨0, 1, 0, 1⟩ ⟨7/20, 27/20, 0, 1⟩) "A" "B"⟩]
    ∧ (oobStep (initVState "S" (3/10))
        (Mob.mk 1 "Square" true (some ⟨-9, -8, -1, 1⟩) [],
          ⟨-9, -8, -1, 1⟩)).tracker.issues
      = [] ++ [⟨Severity.ERROR, "S", 0,
          Msg.oob "Square" ⟨-9, -8, -1, 1⟩ (is_oob ⟨-9, -8, -1, 1⟩)⟩] :=
  ⟨((severity_rule (initVState "S" (3/10))
      (Mob.mk 1 "A" true (some ⟨0, 1, 0, 1⟩) [])
      (Mob.mk 2 "B" true (some ⟨7/20, 27/20, 0, 1⟩) [])
      (Mob.mk 1 "Square" true (some ⟨-9, -8, -1, 1⟩) [])
      ⟨0, 1, 0, 1⟩ ⟨7/20, 27/20, 0, 1⟩ ⟨-9, -8, -1, 1⟩).1
      rfl rfl (List.not_mem_nil _)).1
      (by norm_num [overlap_ratio, bbox_intersection, ratio_of, bbox_area,
        initVState]),
    (severity_rule (initVState "S" (3/10))
      (Mob.mk 1 "A" true (some ⟨0, 1, 0, 1⟩) [])
      (Mob.mk 2 "B" true (some ⟨7/20, 27/20, 0, 1⟩) [])
      (Mob.mk 1 "Square" true (some ⟨-9, -8, -1, 1⟩) [])
      ⟨0, 1, 0, 1⟩ ⟨7/20, 27/20, 0, 1⟩ ⟨-9, -8, -1, 1⟩).2
      (by norm_num [is_oob, HALF_W, HALF_H, FRAME_W, FRAME_H, EDGE_TOL])
      (List.not_mem_nil _)⟩

/-! ## Deduplication lemmas -/

/-- Counting over an appended singleton. -/
theorem countP_append_single (p : Issue → Bool) (l : List Issue) (x : Issue) :
    (l ++ [x]).countP p = l.countP p + if p x then 1 else 0 := by
  rw [List.countP_append, List.countP_cons, List.countP_nil]
  simp

/-- `oobStep` preserves the dedup invariant. -/
theorem oobStep_dedup (v : VState) (mb : Mob × BBox) (h : DedupInv v) :
    DedupInv (oobStep v mb) := by
  unfold oobStep
  split
  · exact h
  · split
    · exact h
    · next hkey =>
      constructor
      · intro k
        show countOOB (v.tracker.issues ++
          [⟨Severity.ERROR, v.scene_name, v.step,
            Msg.oob (mob_label mb.1) mb.2 (is_oob mb.2)⟩]) k ≤ _
        rw [countOOB, countP_append_single]
        by_cases hk : k = (mob_label mb.1, is_oob mb.2)
        · subst hk
          have h0 := h.1 (mob_label mb.1, is_oob mb.2)
          rw [if_neg hkey] at h0
          have h0' : countOOB v.tracker.issues (mob_label mb.1, is_oob mb.2) = 0 :=
            Nat.le_zero.mp h0
          rw [countOOB] at h0'
          rw [h0', if_pos (List.mem_cons_self _ _)]
          simp [oobKeyOf]
        · have hmem : ((k ∈ (mob_label mb.1, is_oob mb.2) :: v._reported_oob))
              ↔ k ∈ v._reported_oob := by
            simp [List.mem_cons, hk]
          rw [if_congr hmem rfl rfl]
          have hx : (decide (oobKeyOf
              ⟨Severity.ERROR, v.scene_name, v.step,
                Msg.oob (mob_label mb.1) mb.2 (is_oob mb.2)⟩ = some k)) = false := by
            simp [oobKeyOf]
            exact fun heq => (hk heq.symm).elim
          rw [hx]
          simpa using h.1 k
      · intro k
        show countOv (v.tracker.issues ++
          [⟨Severity.ERROR, v.scene_name, v.step,
            Msg.oob (mob_label mb.1) mb.2 (is_oob mb.2)⟩]) k ≤ _
        rw [countOv, countP_append_single]
        have hx : (decide (ovKeyOf
            ⟨Severity.ERROR, v.scene_name, v.step,
              Msg.oob (mob_label mb.1) mb.2 (is_oob mb.2)⟩ = some k)) = false := by
          simp [ovKeyOf]
        rw [hx]
        simpa using h.2 k

/-- `overlapStep` preserves the dedup invariant. -/
theorem overlapStep_dedup (v : VState) (p : (Mob × BBox) × (Mob × BBox))
    (h : DedupInv v) : DedupInv (overlapStep v p) := by
  unfold overlapStep
  split
  · exact h
  · split
    · split
      · exact h
      · next hkey =>
        constructor
        · intro k
          show countOOB (v.tracker.issues ++
            [⟨(if overlap_ratio p.1.2 p.2.2 > 3/5 then Severity.ERROR else Severity.WARN),
              v.scene_name, v.step,
              Msg.overlap (overlap_ratio p.1.2 p.2.2)
                (mob_label p.1.1) (mob_label p.2.1)⟩]) k ≤ _
          rw [countOOB, countP_append_single]
          have hx : (decide (oobKeyOf
              ⟨(if overlap_ratio p.1.2 p.2.2 > 3/5 then Severity.ERROR else Severity.WARN),
                v.scene_name, v.step,
                Msg.overlap (overlap_ratio p.1.2 p.2.2)
                  (mob_label p.1.1) (mob_label p.2.1)⟩ = some k)) = false := by
            simp [oobKeyOf]
          rw [hx]
          simpa using h.1 k
        · intro k
          show countOv (v.tracker.issues ++
            [⟨(if overlap_ratio p.1.2 p.2.2 > 3/5 then Severity.ERROR else Severity.WARN),
              v.scene_name, v.step,
              Msg.overlap (overlap_ratio p.1.2 p.2.2)
                (mob_label p.1.1) (mob_label p.2.1)⟩]) k ≤ _
          rw [countOv, countP_append_single]
          by_cases hk : k = sortPair (mob_label p.1.1) (mob_label p.2.1)
          · subst hk
            have h0 := h.2 (sortPair (mob_label p.1.1) (mob_label p.2.1))
            rw [if_neg hkey] at h0
            have h0' : countOv v.tracker.issues
                (sortPair (mob_label p.1.1) (mob_label p.2.1)) = 0 :=
              Nat.le_zero.mp h0
            rw [countOv] at h0'
            rw [h0', if_pos (List.mem_cons_self _ _)]
            simp [ovKeyOf]
          · have hmem : ((k ∈ sortPair (mob_label p.1.1) (mob_label p.2.1)
                :: v._reported_overlaps)) ↔ k ∈ v._reported_overlaps := by
              simp [List.mem_cons, hk]
            rw [if_congr hmem rfl rfl]
            have hx : (decide (ovKeyOf
                ⟨(if overlap_ratio p.1.2 p.2.2 > 3/5 then Severity.ERROR else Severity.WARN),
                  v.scene_name, v.step,
                  Msg.overlap (overlap_ratio p.1.2 p.2.2)
                    (mob_label p.1.1) (mob_label p.2.1)⟩ = some k)) = false := by
              simp [ovKeyOf]
              exact fun heq => (hk heq.symm).elim
            rw [hx]
            simpa using h.2 k
    · exact h

/-- Frame scans preserve the dedup invariant. -/
theorem checkFrame_dedup (v : VState) (scene : List Mob) (h : DedupInv v) :
    DedupInv (_check_frame v scene) := by
  unfold _check_frame
  refine foldl_inv DedupInv overlapStep (pairsOf (mobsWithBbox scene)) _
    (fun s a _ hP => overlapStep_dedup s a hP) ?_
  exact foldl_inv DedupInv oobStep (mobsWithBbox scene) v
    (fun s a _ hP => oobStep_dedup s a hP) h

/-- Whole validation runs satisfy the dedup invariant. -/
theorem validate_dedup (name : String) (thr : Rat) (scene0 : List Mob)
    (batches : List (List PlayArg)) :
    DedupInv (validate name thr scene0 batches).1 := by
  unfold validate
  apply checkFrame_dedup
  refine foldl_inv (fun p : VState × List Mob => DedupInv p.1)
    (fun p batch => patched_play p.1 p.2 batch) batches (initVState name thr, scene0)
    (fun p batch _ hP => checkFrame_dedup _ _ hP) ?_
  constructor
  · intro k
    show countOOB [] k ≤ _
    simp [countOOB]
  · intro k
    show countOv [] k ≤ _
    simp [countOv]

/-- Claim C1 (amended): within one scene run every dedup key yields at most one
recorded issue — for overlaps the key is the sorted label pair; for OOB
findings the key is the label together with the violation messages,
which embed the offending coordinates — and once a key is in the
reported set, re-triggering it adds nothing. -/
theorem dedup_spec :
    (∀ (name : String) (thr : Rat) (scene0 : List Mob)
        (batches : List (List PlayArg)) (k : String × List Violation)
        (kov : String × String),
      countOOB (validate name thr scene0 batches).1.tracker.issues k ≤ 1
      ∧ countOv (validate name thr scene0 batches).1.tracker.issues kov ≤ 1)
    ∧ (∀ (v : VState) (m : Mob) (bb : BBox),
      (mob_label m, is_oob bb) ∈ v._reported_oob → oobStep v (m, bb) = v)
    ∧ (∀ (v : VState) (mi mj : Mob) (bi bj : BBox),
      sortPair (mob_label mi) (mob_label mj) ∈ v._reported_overlaps →
      overlapStep v ((mi, bi), (mj, bj)) = v) := by
  refine ⟨?_, ?_, ?_⟩
  · intro name thr scene0 batches k kov
    have h := validate_dedup name thr scene0 batches
    constructor
    · refine le_trans (h.1 k) ?_
      split <;> norm_num
    · refine le_trans (h.2 kov) ?_
      split <;> norm_num
  · intro v m bb hkey
    simp [oobStep, hkey]
  · intro v mi mj bi bj hkey
    simp [overlapStep, hkey]

/-- Claim C1 witness: `dedup_spec` applied concretely: the run-level bound at a
concrete run and keys, and the no-op behaviour of both step functions
when their key is already in the reported set. -/
theorem dedup_spec_witness :
    (countOOB (validate "S" (3/10)
        [Mob.mk 1 "Square" true (some ⟨-9, -8, -1, 1⟩) []] []).1.tracker.issues
        ("Square", is_oob ⟨-9, -8, -1, 1⟩) ≤ 1)
    ∧ oobStep
        { initVState "S" (3/10) with
          _reported_oob := [("Square", is_oob ⟨-9, -8, -1, 1⟩)] }
        (Mob.mk 1 "Square" true (some ⟨-9, -8, -1, 1⟩) [], ⟨-9, -8, -1, 1⟩)
      = { initVState "S" (3/10) with
          _reported_oob := [("Square", is_oob ⟨-9, -8, -1, 1⟩)] }
    ∧ overlapStep
        { initVState "S" (3/10) with
          _reported_overlaps := [sortPair "A" "B"] }
        ((Mob.mk 1 "A" true (some ⟨0, 1, 0, 1⟩) [], ⟨0, 1, 0, 1⟩),
          (Mob.mk 2 "B" true (some ⟨7/20, 27/20, 0, 1⟩) [], ⟨7/20, 27/20, 0, 1⟩))
      = { initVState "S" (3/10) with
          _reported_overlaps := [sortPair "A" "B"] } :=
  ⟨(dedup_spec.1 "S" (3/10)
      [Mob.mk 1 "Square" true (some ⟨-9, -8, -1, 1⟩) []] []
      ("Square", is_oob ⟨-9, -8, -1, 1⟩) (sortPair "A" "B")).1,
    dedup_spec.2.1 _ _ _ (List.mem_singleton.mpr rfl),
    dedup_spec.2.2 _ _ _ _ _ (List.mem_singleton.mpr rfl)⟩

/-- Claim C1 counterexample: two frame scans that re-trigger the identical
(label, violated-edge-set) OOB condition — `"Square"` sticking out LEFT —
at different coordinates produce two issues, not one: the dedup key
embeds the coordinates that appear in the violation messages. -/
theorem dedup_key_counterexample :
    ((_check_frame
        (_check_frame (initVState "S" (3/10))
          [Mob.mk 1 "Square" true (some ⟨-9, -8, -1, 1⟩) []])
        [Mob.mk 2 "Square" true (some ⟨-10, -8, -1, 1⟩) []]).tracker.issues.length) = 2
    ∧ (is_oob ⟨-9, -8, -1, 1⟩).map Violation.edge = [Edge.LEFT]
    ∧ (is_oob ⟨-10, -8, -1, 1⟩).map Violation.edge = [Edge.LEFT]
    ∧ mob_label (Mob.mk 1 "Square" true (some ⟨-9, -8, -1, 1⟩) [])
      = mob_label (Mob.mk 2 "Square" true (some ⟨-10, -8, -1, 1⟩) []) := by
  refine ⟨?_, ?_, ?_, rfl⟩
  · norm_num [_check_frame, mobsWithBbox, get_bbox, Mob.hasPoints,
      Mob.submobjects, Mob.corners, mob_label, pairsOf, oobStep, overlapStep,
      is_oob, HALF_W, HALF_H, FRAME_W, FRAME_H, EDGE_TOL, initVState,
      IssueTracker.add]
  · norm_num [is_oob, HALF_W, HALF_H, FRAME_W, FRAME_H, EDGE_TOL]
  · norm_num [is_oob, HALF_W, HALF_H, FRAME_W, FRAME_H, EDGE_TOL]

